import Mathlib

/-!
Verification of the agent-based traffic congestion simulation
(Nagel-Schreckenberg cellular automaton on a circular road).

The definitions below are a shallow embedding of the Python source:
  - `Car`, `updVel`, `carUpdate`                ← src/agents.py  (Car.__init__, Car.update)
  - `Road`, `stepRoad`, `introduceAccident`, …  ← src/environment.py
  - `roadInit`, `runSimulation`, density scan   ← src/simulation.py

Machine integers are modelled as `Int` (Python ints are unbounded), the
floating-point quantities (brake probability, `np.random.rand()` draws,
`np.mean` averages) as `ℚ`.  `%` on `Int` in Lean is `Int.emod`, which for a
positive modulus agrees with Python's `%` (result in `[0, modulus)`).
Randomness is modelled explicitly: each `np.random.rand()` call reads one
value from a tape `ℕ → ℚ`, and the (external, numpy-internal) position
sampler and seeding function are parameters of the simulation driver.
-/

/-- State of a `Car` agent (src/agents.py).  `velocity_history` and
`position_history` are the two append-only tracking lists. -/
structure Car where
  position : Int
  velocity : Int
  v_max : Int
  acceleration : Int
  brake_prob : ℚ
  velocity_history : List Int
  position_history : List Int
deriving DecidableEq

/-- Car.__init__: initial position, velocity 0 (start from rest), empty
histories.  In Road.__init__ the acceleration is left at its default 1. -/
def mkCar (position : Int) (v_max : Int) (acceleration : Int) (brake_prob : ℚ) : Car :=
  { position := position, velocity := 0, v_max := v_max,
    acceleration := acceleration, brake_prob := brake_prob,
    velocity_history := [], position_history := [] }

/-- The velocity produced by the first three phases of `Car.update`
(acceleration, collision avoidance, stochastic braking), with `draw` the
value of the `np.random.rand()` call. -/
def updVel (c : Car) (distance_to_next : Int) (draw : ℚ) : Int :=
  let v1 := min (c.velocity + c.acceleration) c.v_max
  let v2 := if distance_to_next ≤ v1 then max (distance_to_next - 1) 0 else v1
  if draw < c.brake_prob then max (v2 - 1) 0 else v2

/-- Car.update (src/agents.py lines 26-57): the four Nagel-Schreckenberg
phases followed by the history append.  `draw` is the uniform sample
consumed by the stochastic-braking phase. -/
def carUpdate (c : Car) (distance_to_next : Int) (road_length : Int) (draw : ℚ) : Car :=
  let v := updVel c distance_to_next draw
  let p := (c.position + v) % road_length
  { c with velocity := v, position := p,
           velocity_history := c.velocity_history ++ [v],
           position_history := c.position_history ++ [p] }

/-- C1: Car.update applies exactly the five phases in order: accelerate to
min(velocity + acceleration, v_max); if the gap is at most the accelerated
velocity clamp to max(gap - 1, 0); if the uniform draw is below brake_prob
decrement to max(velocity - 1, 0); move to (position + velocity) mod
roadLength; append the resulting velocity and position to the two history
lists.  All other fields are unchanged. -/
theorem car_update_phases (c : Car) (distanceToNext roadLength : Int) (draw : ℚ)
    (hgap : 0 ≤ distanceToNext) (hlen : 0 < roadLength)
    (hdraw : 0 ≤ draw ∧ draw < 1) :
    let vAccel := min (c.velocity + c.acceleration) c.v_max
    let vSafe := if distanceToNext ≤ vAccel then max (distanceToNext - 1) 0 else vAccel
    let vFinal := if draw < c.brake_prob then max (vSafe - 1) 0 else vSafe
    let pFinal := (c.position + vFinal) % roadLength
    carUpdate c distanceToNext roadLength draw =
      { position := pFinal, velocity := vFinal,
        v_max := c.v_max, acceleration := c.acceleration, brake_prob := c.brake_prob,
        velocity_history := c.velocity_history ++ [vFinal],
        position_history := c.position_history ++ [pFinal] } := by
  rfl

/-- Concrete car used by several witnesses: position 3, velocity 2,
v_max 5, acceleration 1, brake probability 1 (always brakes). -/
def carW : Car :=
  { position := 3, velocity := 2, v_max := 5, acceleration := 1, brake_prob := 1,
    velocity_history := [], position_history := [] }

/-- C1 witness: the phase decomposition evaluated at a concrete car. -/
theorem car_update_phases_witness :
    (0:Int) ≤ 7 ∧ (0:Int) < 10 ∧ ((0:ℚ) ≤ 0 ∧ (0:ℚ) < 1) ∧
    carUpdate carW 7 10 0 =
      { position := 5, velocity := 2, v_max := 5, acceleration := 1, brake_prob := 1,
        velocity_history := [2], position_history := [5] } :=
  ⟨by decide, by decide, ⟨by decide, by decide⟩,
    (car_update_phases carW 7 10 0 (by decide) (by decide) ⟨by decide, by decide⟩).trans
      (by decide)⟩

/-- Ordering of cars by road position, used by `self.cars.sort(key=lambda c: c.position)`. -/
def carLE (a b : Car) : Prop := a.position ≤ b.position

instance : DecidableRel carLE := fun a b => inferInstanceAs (Decidable (a.position ≤ b.position))

instance : IsTotal Car carLE := ⟨fun a b => Int.le_total a.position b.position⟩

instance : IsTrans Car carLE := ⟨fun _ _ _ h h2 => le_trans h h2⟩

/-- Incident state (the `accident_location` / `accident_duration` /
`accident_timer` attributes set by `introduce_accident`).  The Python code
tests for an active incident with `hasattr`; we model the three attributes
as an optional record, `none` when they have never been set. -/
structure Accident where
  location : Int
  duration : Int
  timer : Int
deriving DecidableEq

/-- State of the `Road` (src/environment.py). -/
structure Road where
  length : Int
  n_cars : Int
  time : Int
  cars : List Car
  avg_velocity_history : List ℚ
  density_history : List ℚ
  flow_history : List ℚ
  accident : Option Accident
deriving DecidableEq

/-- Shortest circular distance from a car position to the accident location:
`min(abs(pos - loc), length - abs(pos - loc))`. -/
def circDist (length p loc : Int) : Int := min |p - loc| (length - |p - loc|)

/-- Force a car in the accident zone (circular distance < 20) to stop;
cars outside the zone are left unchanged. -/
def forceStop (length loc : Int) (c : Car) : Car :=
  if circDist length c.position loc < 20 then { c with velocity := 0 } else c

/-- Road._apply_accident_effects: if the incident attributes were never set,
do nothing; if the timer is still below the duration, force every car within
circular distance 20 of the location to velocity 0 and increment the timer;
otherwise do nothing. -/
def applyAccidentEffects (r : Road) : Road :=
  match r.accident with
  | none => r
  | some a =>
      if a.timer < a.duration then
        { r with cars := r.cars.map (forceStop r.length a.location),
                 accident := some { a with timer := a.timer + 1 } }
      else r

/-- Road.introduce_accident: unconditionally (over)writes the incident
location and duration and resets the timer to 0. -/
def introduceAccident (r : Road) (location duration : Int) : Road :=
  { r with accident := some { location := location, duration := duration, timer := 0 } }

/-- The in-place `self.cars.sort(key=lambda c: c.position)` (a stable sort
by position). -/
def sortCars (cs : List Car) : List Car := cs.insertionSort carLE

/-- The per-index gaps `(position[(i+1) % n] - position[i]) % length`
computed from a list of positions. -/
def gapsOf (length : Int) (ps : List Int) : List Int :=
  List.zipWith (fun a b => (b - a) % length) ps (ps.rotate 1)

/-- The list of `np.random.rand()` values consumed by one step: one draw per
car, in sorted car order, read off the random tape. -/
def drawsFor (tape : ℕ → ℚ) (n : ℕ) : List ℚ := (List.range n).map tape

/-- np.mean on a list of rationals (division by zero — numpy's NaN for an
empty list — is the junk value 0 in ℚ). -/
def npMean (xs : List ℚ) : ℚ := xs.sum / (xs.length : ℚ)

/-- Road._record_metrics: append average velocity, density = n_cars/length
and flow = density * average velocity to the three history lists. -/
def recordMetrics (r : Road) : Road :=
  let avg := npMean (r.cars.map (fun c => (c.velocity : ℚ)))
  let density : ℚ := (r.n_cars : ℚ) / (r.length : ℚ)
  let flow := density * avg
  { r with avg_velocity_history := r.avg_velocity_history ++ [avg],
           density_history := r.density_history ++ [density],
           flow_history := r.flow_history ++ [flow] }

/-- Road.step: apply accident effects, sort cars by position, compute all
gaps from the (pre-step) sorted positions, update every car with its
pre-step gap (consuming one random draw per car), increment time, record
metrics. -/
def stepRoad (r : Road) (tape : ℕ → ℚ) : Road :=
  let r1 := applyAccidentEffects r
  let sorted := sortCars r1.cars
  let ps := sorted.map (fun c => c.position)
  let ds := gapsOf r1.length ps
  let cars2 := ((sorted.zip ds).zip (drawsFor tape sorted.length)).map
      (fun cdq => carUpdate cdq.1.1 cdq.1.2 r1.length cdq.2)
  recordMetrics { r1 with cars := cars2, time := r1.time + 1 }

/-- Iterate `step()` n times; step k draws its per-car randomness from
`tapes k` (an arbitrary fresh tape per step, covering any random draws). -/
def iterSteps (tapes : ℕ → ℕ → ℚ) (r : Road) : ℕ → Road
  | 0 => r
  | n + 1 => stepRoad (iterSteps tapes r n) (tapes n)

/-- Road.__init__ (src/environment.py lines 6-25).  The only operation that
can fail is `np.random.choice(range(length), size=n_cars, replace=False)`:
it raises ValueError when the population `range(length)` is empty or when
more samples than population elements are requested (and a negative size is
likewise rejected).  No validation of `v_max` or `brake_prob` exists.  The
concrete values drawn by numpy are an input here (`sample`); the
constructor sorts them and builds one car per sampled position with
velocity 0 and default acceleration 1. -/
def roadInit (length n_cars v_max : Int) (brake_prob : ℚ) (sample : List Int) :
    Option Road :=
  if length ≤ 0 ∨ n_cars < 0 ∨ length < n_cars then none
  else some
    { length := length, n_cars := n_cars, time := 0,
      cars := (sample.insertionSort (· ≤ ·)).map (fun p => mkCar p v_max 1 brake_prob),
      avg_velocity_history := [], density_history := [], flow_history := [],
      accident := none }

/-- Advance the random tape after consuming `k` draws. -/
def shiftTape (tape : ℕ → ℚ) (k : ℕ) : ℕ → ℚ := fun i => tape (i + k)

/-- The `for _ in range(n_steps): road.step()` loop of run_simulation, with
the single global random tape threaded through (each step consumes one draw
per car). -/
def runStepsT (r : Road) (tape : ℕ → ℚ) : ℕ → Road
  | 0 => r
  | n + 1 => runStepsT (stepRoad r tape) (shiftTape tape r.cars.length) n

/-- A position sampler: from the current random-tape state it produces the
positions drawn by `np.random.choice` together with the advanced tape
state.  numpy's concrete sampling algorithm is outside the repository, so
the sampler is an explicit parameter of the simulation driver; every
theorem below holds for an arbitrary sampler. -/
def Sampler : Type := (ℕ → ℚ) → Int → Int → (List Int × (ℕ → ℚ))

/-- run_simulation (src/simulation.py lines 4-29): if a seed is given, reset
the global random stream to the state determined by the seed (`seedFn`
The global random stream in effect after the optional np.random.seed
call is the seed-determined state when a seed is given, the pre-existing
stream otherwise. -/
def seedTape (seedFn : ℕ → (ℕ → ℚ)) (tape0 : ℕ → ℚ) : Option ℕ → (ℕ → ℚ)
  | some s => seedFn s
  | none => tape0

def runSimulation (sampler : Sampler) (seedFn : ℕ → (ℕ → ℚ)) (tape0 : ℕ → ℚ)
    (n_steps : ℕ) (road_length n_cars v_max : Int) (brake_prob : ℚ)
    (seed : Option ℕ) : Option Road :=
  let st := sampler (seedTape seedFn tape0 seed) road_length n_cars
  (roadInit road_length n_cars v_max brake_prob st.1).map
    (fun r => runStepsT r st.2 n_steps)

/-- Python `int()` applied to a rational: truncation toward zero. -/
def pyInt (x : ℚ) : Int := if 0 ≤ x then ⌊x⌋ else -⌊-x⌋

/-- The vehicle-count derivation `n_cars = int(density * road_length)` used
by experiment_density_scan. -/
def densityScanCarCount (density : ℚ) (road_length : Int) : Int :=
  pyInt (density * (road_length : ℚ))

/-- np.var on a list of rationals: the mean squared deviation from the mean.
`np.std` is its (real, irrational) square root; the nonnegativity of the
standard deviation is exactly the nonnegativity of this square. -/
def npVar (xs : List ℚ) : ℚ := npMean (xs.map (fun x => (x - npMean xs) ^ 2))

/-- One aggregate entry of experiment_density_scan.  The source stores
`np.std`; we store its square (see `npVar`). -/
structure DensityAgg where
  avg_velocity : ℚ
  var_velocity : ℚ
  avg_flow : ℚ
  var_flow : ℚ
deriving DecidableEq

/-- Sequence a list of optional results, propagating the first failure
(an uncaught Python exception aborts the surrounding loop). -/
def seqOption : List (Option α) → Option (List α)
  | [] => some []
  | x :: xs => x.bind (fun a => (seqOption xs).map (fun rest => a :: rest))

/-- The inner replicate loop of experiment_density_scan for one density:
run `n_runs` replicate simulations (seed = replicate index, all other
parameters at the run_simulation defaults v_max = 5, brake_prob = 0.3),
and for each take the mean steady-state (post-burn-in) average velocity and
flow. -/
def densityScanReplicates (sampler : Sampler) (seedFn : ℕ → (ℕ → ℚ)) (tape0 : ℕ → ℚ)
    (n_steps : ℕ) (road_length : Int) (n_runs burn_in : ℕ) (n_cars : Int) :
    Option (List (ℚ × ℚ)) :=
  seqOption ((List.range n_runs).map (fun run =>
    (runSimulation sampler seedFn tape0 n_steps road_length n_cars 5 (3/10)
        (some run)).map
      (fun road => (npMean (road.avg_velocity_history.drop burn_in),
                    npMean (road.flow_history.drop burn_in)))))

/-- The aggregate entry for one density, built from the per-replicate
steady-state means. -/
def densityScanOne (sampler : Sampler) (seedFn : ℕ → (ℕ → ℚ)) (tape0 : ℕ → ℚ)
    (n_steps : ℕ) (road_length : Int) (n_runs burn_in : ℕ) (density : ℚ) :
    Option (ℚ × DensityAgg) :=
  (densityScanReplicates sampler seedFn tape0 n_steps road_length n_runs burn_in
      (densityScanCarCount density road_length)).map
    (fun reps =>
      (density,
       { avg_velocity := npMean (reps.map Prod.fst),
         var_velocity := npVar (reps.map Prod.fst),
         avg_flow := npMean (reps.map Prod.snd),
         var_flow := npVar (reps.map Prod.snd) }))

/-- experiment_density_scan (src/simulation.py lines 61-101): for each
requested density derive the vehicle count, run the replicates, and collect
one aggregate entry keyed by the density (the Python dict, with distinct
densities, in insertion order). -/
def experimentDensityScan (sampler : Sampler) (seedFn : ℕ → (ℕ → ℚ)) (tape0 : ℕ → ℚ)
    (densities : List ℚ) (n_steps : ℕ) (road_length : Int) (n_runs burn_in : ℕ) :
    Option (List (ℚ × DensityAgg)) :=
  seqOption (densities.map
    (densityScanOne sampler seedFn tape0 n_steps road_length n_runs burn_in))

/-- Phases 1-3 never produce a negative velocity when the car starts with a
nonnegative velocity and has nonnegative acceleration and v_max. -/
theorem updVel_nonneg (c : Car) (g : Int) (q : ℚ) (hv : 0 ≤ c.velocity)
    (ha : 0 ≤ c.acceleration) (hm : 0 ≤ c.v_max) : 0 ≤ updVel c g q := by
  unfold updVel
  dsimp only
  split_ifs <;> omega

/-- Phases 1-3 never exceed v_max when v_max is nonnegative. -/
theorem updVel_le_vmax (c : Car) (g : Int) (q : ℚ) (hm : 0 ≤ c.v_max) :
    updVel c g q ≤ c.v_max := by
  unfold updVel
  dsimp only
  split_ifs <;> omega

/-- With a positive gap, the collision-avoidance clamp guarantees the final
velocity is strictly below the gap. -/
theorem updVel_lt_gap (c : Car) (g : Int) (q : ℚ) (hg : 1 ≤ g)
    (hv : 0 ≤ c.velocity) (ha : 0 ≤ c.acceleration) (hm : 0 ≤ c.v_max) :
    updVel c g q < g := by
  unfold updVel
  dsimp only
  split_ifs <;> omega

/-- C3: a vehicle satisfying the kinematic invariants (0 ≤ velocity ≤ v_max,
position in [0, roadLength), nonnegative acceleration) satisfies them again
after any update with a nonnegative gap and any draw, and also when the
update runs after the incident override has forced its velocity to 0. -/
theorem car_update_preserves_invariants (c : Car) (gap roadLength : Int) (q : ℚ)
    (loc : Int)
    (hv0 : 0 ≤ c.velocity) (hv1 : c.velocity ≤ c.v_max)
    (ha : 0 ≤ c.acceleration)
    (hp : 0 ≤ c.position ∧ c.position < roadLength)
    (hgap : 0 ≤ gap) (hL : 0 < roadLength) :
    (0 ≤ (carUpdate c gap roadLength q).velocity
      ∧ (carUpdate c gap roadLength q).velocity ≤ (carUpdate c gap roadLength q).v_max
      ∧ 0 ≤ (carUpdate c gap roadLength q).position
      ∧ (carUpdate c gap roadLength q).position < roadLength)
    ∧ (0 ≤ (forceStop roadLength loc c).velocity
      ∧ (forceStop roadLength loc c).velocity ≤ (forceStop roadLength loc c).v_max
      ∧ 0 ≤ (carUpdate (forceStop roadLength loc c) gap roadLength q).velocity
      ∧ (carUpdate (forceStop roadLength loc c) gap roadLength q).velocity
          ≤ (carUpdate (forceStop roadLength loc c) gap roadLength q).v_max
      ∧ 0 ≤ (carUpdate (forceStop roadLength loc c) gap roadLength q).position
      ∧ (carUpdate (forceStop roadLength loc c) gap roadLength q).position < roadLength) := by
  have hm : 0 ≤ c.v_max := le_trans hv0 hv1
  have hstop : 0 ≤ (forceStop roadLength loc c).velocity
      ∧ (forceStop roadLength loc c).velocity ≤ (forceStop roadLength loc c).v_max
      ∧ (forceStop roadLength loc c).position = c.position
      ∧ (forceStop roadLength loc c).acceleration = c.acceleration
      ∧ (forceStop roadLength loc c).v_max = c.v_max := by
    unfold forceStop
    split_ifs <;> simp_all
  refine ⟨⟨updVel_nonneg c gap q hv0 ha hm, updVel_le_vmax c gap q hm,
      Int.emod_nonneg _ (by omega), Int.emod_lt_of_pos _ hL⟩,
    hstop.1, hstop.2.1,
    updVel_nonneg _ gap q hstop.1 (hstop.2.2.2.1 ▸ ha) (hstop.2.2.2.2 ▸ hm),
    updVel_le_vmax _ gap q (hstop.2.2.2.2 ▸ hm),
    Int.emod_nonneg _ (by omega), Int.emod_lt_of_pos _ hL⟩

/-- C3 witness: the invariants evaluated at the concrete car `carW` on a
road of length 10 with an incident at cell 4. -/
theorem car_update_preserves_invariants_witness :
    ((0:Int) ≤ carW.velocity ∧ carW.velocity ≤ carW.v_max
      ∧ (0:Int) ≤ carW.acceleration
      ∧ ((0:Int) ≤ carW.position ∧ carW.position < 10)
      ∧ (0:Int) ≤ 7 ∧ (0:Int) < 10)
    ∧ (0 ≤ (carUpdate carW 7 10 0).velocity
      ∧ (carUpdate carW 7 10 0).velocity ≤ (carUpdate carW 7 10 0).v_max
      ∧ 0 ≤ (carUpdate carW 7 10 0).position
      ∧ (carUpdate carW 7 10 0).position < 10) :=
  ⟨⟨by decide, by decide, by decide, ⟨by decide, by decide⟩, by decide, by decide⟩,
    (car_update_preserves_invariants carW 7 10 0 4 (by decide) (by decide) (by decide)
      ⟨by decide, by decide⟩ (by decide) (by decide)).1⟩

/-- The incident override changes at most a car's velocity. -/
theorem forceStop_position (length loc : Int) (c : Car) :
    (forceStop length loc c).position = c.position := by
  unfold forceStop
  split_ifs <;> rfl

/-- Road._apply_accident_effects touches only car velocities and the
incident timer: road length, car count, time, the metric histories, the
number of cars and every car position are unchanged. -/
theorem applyAccidentEffects_preserves (r : Road) :
    (applyAccidentEffects r).length = r.length
    ∧ (applyAccidentEffects r).n_cars = r.n_cars
    ∧ (applyAccidentEffects r).time = r.time
    ∧ (applyAccidentEffects r).avg_velocity_history = r.avg_velocity_history
    ∧ (applyAccidentEffects r).density_history = r.density_history
    ∧ (applyAccidentEffects r).flow_history = r.flow_history
    ∧ (applyAccidentEffects r).cars.map (fun c => c.position)
        = r.cars.map (fun c => c.position)
    ∧ (applyAccidentEffects r).cars.length = r.cars.length := by
  rcases hA : r.accident with _ | a <;>
    simp only [applyAccidentEffects, hA] <;>
    [skip; split_ifs] <;>
    simp [List.map_map, Function.comp_def, forceStop_position]

/-- The cars produced by one step, before metric recording: the sorted
pre-step cars, each updated with its pre-step gap and one tape draw. -/
theorem stepRoad_cars (r : Road) (tape : ℕ → ℚ) :
    (stepRoad r tape).cars =
      (((sortCars (applyAccidentEffects r).cars).zip
          (gapsOf (applyAccidentEffects r).length
            ((sortCars (applyAccidentEffects r).cars).map (fun c => c.position)))).zip
        (drawsFor tape (sortCars (applyAccidentEffects r).cars).length)).map
        (fun cdq => carUpdate cdq.1.1 cdq.1.2 (applyAccidentEffects r).length cdq.2) := rfl

/-- Concrete two-car road used by several witnesses: length 10, cars at
positions 4 and 1 (unsorted), both at rest, v_max 5, acceleration 1,
brake probability 0, no incident. -/
def roadW : Road :=
  { length := 10, n_cars := 2, time := 0,
    cars := [{ position := 4, velocity := 0, v_max := 5, acceleration := 1, brake_prob := 0,
               velocity_history := [], position_history := [] },
             { position := 1, velocity := 0, v_max := 5, acceleration := 1, brake_prob := 0,
               velocity_history := [], position_history := [] }],
    avg_velocity_history := [], density_history := [], flow_history := [],
    accident := none }

/-- C2: one call of step() first applies the (position-preserving) incident
override, sorts the cars by ascending position, computes every cyclic gap
`(position[(i+1) % n] - position[i]) % length` from the pre-step positions
before any car moves, updates car i with its pre-step gap and its own
random draw, increments time by 1, and appends exactly one value to each of
the three system histories: the mean of the (updated) car velocities, the
density n_cars / length, and flow = density * average velocity. -/
theorem road_step_order (r : Road) (tape : ℕ → ℚ) (i : ℕ)
    (hi : i < (sortCars (applyAccidentEffects r).cars).length) :
    ((applyAccidentEffects r).cars.map (fun c => c.position)
        = r.cars.map (fun c => c.position))
    ∧ List.Sorted carLE (sortCars (applyAccidentEffects r).cars)
    ∧ (sortCars (applyAccidentEffects r).cars).Perm (applyAccidentEffects r).cars
    ∧ (stepRoad r tape).cars.length = r.cars.length
    ∧ ((stepRoad r tape).cars[i]? =
        some (carUpdate ((sortCars (applyAccidentEffects r).cars).get ⟨i, hi⟩)
          ((((sortCars (applyAccidentEffects r).cars).get
                ⟨(i + 1) % (sortCars (applyAccidentEffects r).cars).length,
                 Nat.mod_lt _ (by omega)⟩).position
             - ((sortCars (applyAccidentEffects r).cars).get ⟨i, hi⟩).position)
            % r.length)
          r.length (tape i)))
    ∧ (stepRoad r tape).time = r.time + 1
    ∧ (stepRoad r tape).avg_velocity_history
        = r.avg_velocity_history
          ++ [npMean ((stepRoad r tape).cars.map (fun c => (c.velocity : ℚ)))]
    ∧ (stepRoad r tape).density_history
        = r.density_history ++ [(r.n_cars : ℚ) / (r.length : ℚ)]
    ∧ (stepRoad r tape).flow_history
        = r.flow_history
          ++ [(r.n_cars : ℚ) / (r.length : ℚ)
               * npMean ((stepRoad r tape).cars.map (fun c => (c.velocity : ℚ)))] := by
  obtain ⟨hL, hN, hT, hH1, hH2, hH3, hPos, hCLen⟩ := applyAccidentEffects_preserves r
  have hslen : (sortCars (applyAccidentEffects r).cars).length
      = (applyAccidentEffects r).cars.length := by
    simp [sortCars, List.length_insertionSort]
  have hlen : (stepRoad r tape).cars.length = r.cars.length := by
    rw [stepRoad_cars]
    simp [gapsOf, drawsFor, List.length_zipWith, List.length_rotate, hslen, hCLen]
  refine ⟨hPos, List.sorted_insertionSort carLE _, List.perm_insertionSort carLE _,
    hlen, ?_, ?_, ?_, ?_, ?_⟩
  · have hi2 : i < (stepRoad r tape).cars.length := by
      rw [hlen, ← hCLen, ← hslen]; exact hi
    rw [List.getElem?_eq_getElem hi2]
    congr 1
    simp only [stepRoad_cars]
    simp only [List.getElem_map, List.getElem_zip, List.getElem_zipWith, gapsOf, drawsFor,
      List.getElem_rotate, List.get_eq_getElem, hL]
    congr 1
    · simp
    · simp
  · simp [stepRoad, recordMetrics, hT]
  · simp [stepRoad, recordMetrics, stepRoad_cars, hH1]
  · simp [stepRoad, recordMetrics, hH2, hN, hL]
  · simp [stepRoad, recordMetrics, stepRoad_cars, hH3, hN, hL]

/-- C2 witness: the step decomposition applied to the concrete two-car road
at index 0. -/
theorem road_step_order_witness :
    0 < (sortCars (applyAccidentEffects roadW).cars).length
    ∧ (stepRoad roadW (fun _ => 0)).time = roadW.time + 1
    ∧ (stepRoad roadW (fun _ => 0)).cars.length = roadW.cars.length :=
  ⟨by decide,
   (road_step_order roadW (fun _ => 0) 0 (by decide)).2.2.2.2.2.1,
   (road_step_order roadW (fun _ => 0) 0 (by decide)).2.2.2.1⟩

/-- One step advances the incident timer exactly when the incident is
active, and never touches the location or duration. -/
theorem stepRoad_accident (r : Road) (tape : ℕ → ℚ) :
    (stepRoad r tape).accident =
      match r.accident with
      | none => none
      | some a =>
          some (if a.timer < a.duration then { a with timer := a.timer + 1 } else a) := by
  rcases hA : r.accident with _ | a <;>
    simp only [stepRoad, recordMetrics, applyAccidentEffects, hA] <;>
    split_ifs <;> simp [hA]

/-- One step never changes the road length. -/
theorem stepRoad_length (r : Road) (tape : ℕ → ℚ) :
    (stepRoad r tape).length = r.length := by
  simp [stepRoad, recordMetrics, (applyAccidentEffects_preserves r).1]

/-- Iterated steps never change the road length. -/
theorem iterSteps_length (tapes : ℕ → ℕ → ℚ) (r : Road) (n : ℕ) :
    (iterSteps tapes r n).length = r.length := by
  induction n with
  | zero => rfl
  | succ n ih => rw [iterSteps, stepRoad_length, ih]

/-- After n steps following introduce_accident the incident timer has
advanced to min n duration. -/
theorem iterSteps_accident_timer (tapes : ℕ → ℕ → ℚ) (r : Road) (loc dur : Int)
    (hdur : 0 ≤ dur) (n : ℕ) :
    (iterSteps tapes (introduceAccident r loc dur) n).accident
      = some { location := loc, duration := dur, timer := min (n : Int) dur } := by
  induction n with
  | zero => simp [iterSteps, introduceAccident]; omega
  | succ n ih =>
      rw [iterSteps, stepRoad_accident, ih]
      simp only [Option.some.injEq]
      split_ifs <;> simp_all <;> omega

/-- C4: introduce_accident sets the incident location and duration and
resets the timer to 0, silently overwriting any already-active incident and
leaving the cars untouched; after n subsequent steps the timer has advanced
to min n duration; on each of exactly the first `duration` steps the
override (which runs before the normal per-car update) forces every car
with circular distance min(abs(pos-loc), length-abs(pos-loc)) below 20 to
velocity 0 and leaves cars at distance 20 or more completely unchanged;
once the timer has reached the duration the override does nothing. -/
theorem accident_window (r : Road) (loc dur : Int) (hdur : 0 ≤ dur)
    (tapes : ℕ → ℕ → ℚ) (n : ℕ) :
    (introduceAccident r loc dur).accident
        = some { location := loc, duration := dur, timer := 0 }
    ∧ (introduceAccident r loc dur).cars = r.cars
    ∧ (iterSteps tapes (introduceAccident r loc dur) n).accident
        = some { location := loc, duration := dur, timer := min (n : Int) dur }
    ∧ ((n : Int) < dur →
        (applyAccidentEffects (iterSteps tapes (introduceAccident r loc dur) n)).cars
          = (iterSteps tapes (introduceAccident r loc dur) n).cars.map
              (forceStop r.length loc))
    ∧ (∀ c : Car,
        (circDist r.length c.position loc < 20 → (forceStop r.length loc c).velocity = 0)
        ∧ (¬ circDist r.length c.position loc < 20 → forceStop r.length loc c = c))
    ∧ (dur ≤ (n : Int) →
        applyAccidentEffects (iterSteps tapes (introduceAccident r loc dur) n)
          = iterSteps tapes (introduceAccident r loc dur) n) := by
  have hacc := iterSteps_accident_timer tapes r loc dur hdur n
  have hlen : (iterSteps tapes (introduceAccident r loc dur) n).length = r.length := by
    rw [iterSteps_length]; rfl
  refine ⟨rfl, rfl, hacc, ?_, ?_, ?_⟩
  · intro hn
    have hmin : min (n : Int) dur < dur := by omega
    simp only [applyAccidentEffects, hacc, hmin, if_pos, hlen]
  · intro c
    constructor
    · intro h
      simp [forceStop, h]
    · intro h
      simp [forceStop, h]
  · intro hn
    have hmin : ¬ (min (n : Int) dur < dur) := by omega
    simp only [applyAccidentEffects, hacc, hmin, if_false, if_neg, not_false_eq_true]

/-- C4 witness: the incident window evaluated on the concrete two-car road
with an accident of duration 1 at cell 4, before any step has run. -/
theorem accident_window_witness :
    (0 : Int) ≤ 1
    ∧ (introduceAccident roadW 4 1).accident
        = some { location := 4, duration := 1, timer := 0 }
    ∧ ((0 : Int) < 1 →
        (applyAccidentEffects (iterSteps (fun _ _ => 0) (introduceAccident roadW 4 1) 0)).cars
          = (iterSteps (fun _ _ => 0) (introduceAccident roadW 4 1) 0).cars.map
              (forceStop roadW.length 4)) :=
  ⟨by decide,
   (accident_window roadW 4 1 (by decide) (fun _ _ => 0) 0).1,
   (accident_window roadW 4 1 (by decide) (fun _ _ => 0) 0).2.2.2.1⟩

/-- A road of length 10 holding exactly one vehicle (position 0, at rest,
v_max = 5, brake_prob = 0, acceleration = 1): the configuration of the
steady-state sanity property. -/
def roadSolo : Road :=
  { length := 10, n_cars := 1, time := 0,
    cars := [{ position := 0, velocity := 0, v_max := 5, acceleration := 1, brake_prob := 0,
               velocity_history := [], position_history := [] }],
    avg_velocity_history := [], density_history := [], flow_history := [],
    accident := none }

/-- C5: evaluating the code at the failing input.  With exactly one vehicle
the cyclic gap is computed to the vehicle itself, `(p - p) % length = 0`,
so the collision-avoidance clamp forces the velocity to 0 on every single
step: after 5 = v_max steps (no braking, no neighbour) the velocity history
is [0, 0, 0, 0, 0] and the velocity is 0, not v_max = 5 — the vehicle never
moves at all. -/
theorem single_car_never_accelerates :
    ((iterSteps (fun _ _ => 0) roadSolo 5).cars.map (fun c => c.velocity) = [0])
    ∧ ((iterSteps (fun _ _ => 0) roadSolo 5).cars.map (fun c => c.velocity_history)
        = [[0, 0, 0, 0, 0]])
    ∧ ((iterSteps (fun _ _ => 0) roadSolo 5).cars.map (fun c => c.position) = [0]) := by
  decide

/-- A road with no cars at all. -/
def roadEmpty : Road :=
  { length := 5, n_cars := 0, time := 0, cars := [],
    avg_velocity_history := [], density_history := [], flow_history := [],
    accident := none }

/-- C8 counterexample: stepping a road with zero vehicles does not raise
any error (the source has no error path at all); it silently appends the
average of the empty velocity list (numpy's NaN; the junk value 0 of the
rational model) to the metrics histories. -/
theorem empty_road_step_records_value :
    (stepRoad roadEmpty (fun _ => 0)).avg_velocity_history.length = 1
    ∧ (stepRoad roadEmpty (fun _ => 0)).flow_history.length = 1
    ∧ (stepRoad roadEmpty (fun _ => 0)).time = 1
    ∧ (stepRoad roadEmpty (fun _ => 0)).cars = [] := by
  decide

/-- C8 amended: step() on an empty road never raises an EmptyFleet error;
it completes normally, appending the undefined mean-of-empty (NaN in
numpy; `npMean []` here) and the corresponding flow to the histories. -/
theorem empty_road_step_no_error (r : Road) (tape : ℕ → ℚ) (h : r.cars = []) :
    (stepRoad r tape).cars = []
    ∧ (stepRoad r tape).time = r.time + 1
    ∧ (stepRoad r tape).avg_velocity_history = r.avg_velocity_history ++ [npMean []]
    ∧ (stepRoad r tape).density_history
        = r.density_history ++ [(r.n_cars : ℚ) / (r.length : ℚ)]
    ∧ (stepRoad r tape).flow_history
        = r.flow_history ++ [(r.n_cars : ℚ) / (r.length : ℚ) * npMean []] := by
  obtain ⟨hL, hN, hT, hH1, hH2, hH3, hPos, hCLen⟩ := applyAccidentEffects_preserves r
  have hc : (applyAccidentEffects r).cars = [] := by
    have := hCLen
    rw [h] at this
    exact List.length_eq_zero.mp this
  simp [stepRoad, recordMetrics, hc, hT, hH1, hH2, hH3, hN, hL, sortCars, gapsOf, drawsFor]

/-- C8 amended witness: the empty road evaluated concretely. -/
theorem empty_road_step_no_error_witness :
    roadEmpty.cars = []
    ∧ (stepRoad roadEmpty (fun _ => 0)).avg_velocity_history
        = roadEmpty.avg_velocity_history ++ [npMean []] :=
  ⟨by decide, (empty_road_step_no_error roadEmpty (fun _ => 0) (by decide)).2.2.1⟩

/-- C7 counterexample: constructing a road with a negative v_max and a
brake probability outside [0,1] succeeds — Road.__init__ and Car.__init__
perform no parameter validation, so no InvalidConfiguration condition is
raised for v_max = -1 or brake_prob = 2. -/
theorem road_init_accepts_invalid_params :
    (roadInit 10 2 (-1) 2 [0, 1]).isSome = true
    ∧ ((roadInit 10 2 (-1) 2 [0, 1]).map (fun r => r.cars.map (fun c => c.v_max))
        = some [-1, -1])
    ∧ ((roadInit 10 2 (-1) 2 [0, 1]).map (fun r => r.cars.map (fun c => c.brake_prob))
        = some [2, 2]) := by
  decide

/-- C7 amended: construction fails — with numpy's ValueError from sampling
without replacement, the only failure path — exactly when the population
range(length) is empty (length ≤ 0), the requested size is negative, or the
vehicle count exceeds the road length; v_max and brake_prob are never
validated, so construction succeeds for every v_max and brake_prob whenever
the sampling is possible. -/
theorem road_init_failure_iff (length n_cars v_max : Int) (brake_prob : ℚ)
    (sample : List Int) :
    roadInit length n_cars v_max brake_prob sample = none
      ↔ (length ≤ 0 ∨ n_cars < 0 ∨ length < n_cars) := by
  unfold roadInit
  split_ifs with h
  · simp [h]
  · simp [h]

/-- C10: with the global random stream modelled explicitly, two runs with
identical configuration (step count, road length, car count, v_max, brake
probability) and identical seed produce identical results — in particular
identical per-vehicle velocity and position histories and identical
system-level histories — regardless of the random-stream state the runs
started from, because `np.random.seed(seed)` resets the stream to a state
depending only on the seed. -/
theorem run_simulation_deterministic (sampler : Sampler) (seedFn : ℕ → (ℕ → ℚ))
    (tape1 tape2 : ℕ → ℚ) (n_steps : ℕ) (road_length n_cars v_max : Int)
    (brake_prob : ℚ) (s : ℕ) :
    runSimulation sampler seedFn tape1 n_steps road_length n_cars v_max brake_prob (some s)
      = runSimulation sampler seedFn tape2 n_steps road_length n_cars v_max brake_prob
          (some s)
    ∧ (runSimulation sampler seedFn tape1 n_steps road_length n_cars v_max brake_prob
          (some s)).map (fun road => road.cars.map
            (fun c => (c.velocity_history, c.position_history)))
      = (runSimulation sampler seedFn tape2 n_steps road_length n_cars v_max brake_prob
          (some s)).map (fun road => road.cars.map
            (fun c => (c.velocity_history, c.position_history)))
    ∧ (runSimulation sampler seedFn tape1 n_steps road_length n_cars v_max brake_prob
          (some s)).map (fun road =>
            (road.avg_velocity_history, road.density_history, road.flow_history))
      = (runSimulation sampler seedFn tape2 n_steps road_length n_cars v_max brake_prob
          (some s)).map (fun road =>
            (road.avg_velocity_history, road.density_history, road.flow_history)) :=
  ⟨rfl, rfl, rfl⟩

/-- Two integers whose difference lies strictly between 0 and L have
distinct residues modulo L. -/
theorem emod_ne_of_window (L a b : Int) (h1 : 0 < b - a) (h2 : b - a < L) :
    a % L ≠ b % L := by
  intro h
  rw [Int.emod_eq_emod_iff_emod_sub_eq_zero] at h
  rw [show a - b = (a - b + L) - L by ring] at h
  rw [Int.sub_emod, Int.emod_self, Int.sub_zero, Int.emod_emod_of_dvd _ dvd_rfl] at h
  rw [Int.emod_eq_of_lt (by omega) (by omega)] at h
  omega

/-- An integer in (-L, 0) reduces modulo L to itself plus L. -/
theorem emod_eq_add_of_neg (x L : Int) (h1 : -L < x) (h2 : x < 0) : x % L = x + L := by
  rw [show x % L = (x + L * 1) % L by rw [Int.add_mul_emod_self_left], mul_one]
  exact Int.emod_eq_of_lt (by omega) (by omega)

/-- The incident override either leaves the car list unchanged or maps
forceStop over it. -/
theorem applyAccidentEffects_cars_cases (r : Road) :
    (applyAccidentEffects r).cars = r.cars
    ∨ ∃ loc, (applyAccidentEffects r).cars = r.cars.map (forceStop r.length loc) := by
  unfold applyAccidentEffects
  rcases r.accident with _ | a
  · exact Or.inl rfl
  · dsimp only
    split_ifs
    · exact Or.inr ⟨a.location, rfl⟩
    · exact Or.inl rfl

/-- forceStop keeps position, acceleration and v_max, and either zeroes the
velocity or keeps it. -/
theorem forceStop_fields (length loc : Int) (c : Car) :
    (forceStop length loc c).position = c.position
    ∧ (forceStop length loc c).acceleration = c.acceleration
    ∧ (forceStop length loc c).v_max = c.v_max
    ∧ ((forceStop length loc c).velocity = 0
        ∨ (forceStop length loc c).velocity = c.velocity) := by
  unfold forceStop
  split_ifs <;> simp

/-- The position written by Car.update. -/
theorem carUpdate_position (c : Car) (d L : Int) (q : ℚ) :
    (carUpdate c d L q).position = (c.position + updVel c d q) % L := rfl

/-- C6: one call of step() on a road whose (at least two) cars occupy
pairwise-distinct in-range positions leaves the positions pairwise
distinct, with or without an active incident and for any random draws: the
collision-avoidance clamp makes every car advance strictly less than its
pre-step gap (which is never negative), so no two cars can land on the
same cell. -/
theorem step_preserves_distinct_positions (r : Road) (tape : ℕ → ℚ)
    (hL : 0 < r.length) (h2 : 2 ≤ r.cars.length)
    (hpos : ∀ c ∈ r.cars, 0 ≤ c.position ∧ c.position < r.length)
    (hkin : ∀ c ∈ r.cars, 0 ≤ c.velocity ∧ 0 ≤ c.acceleration ∧ 0 ≤ c.v_max)
    (hdist : (r.cars.map (fun c => c.position)).Nodup) :
    ((stepRoad r tape).cars.map (fun c => c.position)).Nodup := by
  obtain ⟨hL1, hN1, hT1, hA1, hB1, hC1, hPosMap, hCLen⟩ := applyAccidentEffects_preserves r
  -- transfer the hypotheses through the incident override
  have hpos1 : ∀ c ∈ (applyAccidentEffects r).cars, 0 ≤ c.position ∧ c.position < r.length := by
    rcases applyAccidentEffects_cars_cases r with h | ⟨loc, h⟩ <;> rw [h]
    · exact hpos
    · intro c hc
      obtain ⟨c0, hc0, rfl⟩ := List.mem_map.mp hc
      rw [(forceStop_fields r.length loc c0).1]
      exact hpos c0 hc0
  have hkin1 : ∀ c ∈ (applyAccidentEffects r).cars,
      0 ≤ c.velocity ∧ 0 ≤ c.acceleration ∧ 0 ≤ c.v_max := by
    rcases applyAccidentEffects_cars_cases r with h | ⟨loc, h⟩ <;> rw [h]
    · exact hkin
    · intro c hc
      obtain ⟨c0, hc0, rfl⟩ := List.mem_map.mp hc
      obtain ⟨hp0, ha0, hm0, hv0⟩ := forceStop_fields r.length loc c0
      rw [ha0, hm0]
      rcases hv0 with hv0 | hv0 <;> rw [hv0]
      · exact ⟨le_refl 0, (hkin c0 hc0).2⟩
      · exact hkin c0 hc0
  have hdist1 : ((applyAccidentEffects r).cars.map (fun c => c.position)).Nodup := by
    rw [hPosMap]; exact hdist
  -- sort
  have hperm : (sortCars (applyAccidentEffects r).cars).Perm (applyAccidentEffects r).cars :=
    List.perm_insertionSort carLE _
  have hsort : List.Sorted carLE (sortCars (applyAccidentEffects r).cars) :=
    List.sorted_insertionSort carLE _
  set sorted := sortCars (applyAccidentEffects r).cars with hsortedDef
  have hmemS : ∀ c ∈ sorted,
      (0 ≤ c.position ∧ c.position < r.length)
      ∧ (0 ≤ c.velocity ∧ 0 ≤ c.acceleration ∧ 0 ≤ c.v_max) :=
    fun c hc => ⟨hpos1 c (hperm.subset hc), hkin1 c (hperm.subset hc)⟩
  have hdistS : (sorted.map (fun c => c.position)).Nodup :=
    ((hperm.map (fun c => c.position)).nodup_iff).mpr hdist1
  have hstrict : sorted.Pairwise (fun a b => a.position < b.position) := by
    have hne : sorted.Pairwise (fun a b => a.position ≠ b.position) :=
      List.pairwise_map.mp hdistS
    exact (List.Pairwise.and hsort hne).imp (fun h => lt_of_le_of_ne h.1 h.2)
  have hn2 : 2 ≤ sorted.length := by
    rw [hsortedDef, sortCars, List.length_insertionSort, hCLen]
    exact h2
  -- length bookkeeping
  have hlen : (stepRoad r tape).cars.length = sorted.length := by
    rw [stepRoad_cars]
    simp [gapsOf, drawsFor, List.length_zipWith, List.length_rotate]
  -- index monotonicity of sorted positions
  have hmono : ∀ a b (ha : a < sorted.length) (hb : b < sorted.length), a ≤ b →
      (sorted.get ⟨a, ha⟩).position ≤ (sorted.get ⟨b, hb⟩).position := by
    intro a b ha hb hab
    rcases Nat.eq_or_lt_of_le hab with h | h
    · subst h; exact le_refl _
    · exact le_of_lt (List.pairwise_iff_getElem.mp hstrict a b ha hb h)
  have hstrictIdx : ∀ a b (ha : a < sorted.length) (hb : b < sorted.length), a < b →
      (sorted.get ⟨a, ha⟩).position < (sorted.get ⟨b, hb⟩).position :=
    fun a b ha hb h => List.pairwise_iff_getElem.mp hstrict a b ha hb h
  -- the explicit update formula at each index
  have hget : ∀ i (hi : i < (stepRoad r tape).cars.length),
      ((stepRoad r tape).cars.get ⟨i, hi⟩).position =
        ((sorted.get ⟨i, by omega⟩).position +
          updVel (sorted.get ⟨i, by omega⟩)
            (((sorted.get ⟨(i + 1) % sorted.length,
                Nat.mod_lt _ (by omega)⟩).position
              - (sorted.get ⟨i, by omega⟩).position) % r.length)
            (tape i)) % r.length := by
    intro i hi
    have hi2 : i < sorted.length := by omega
    simp only [List.get_eq_getElem, stepRoad_cars]
    simp only [List.getElem_map, List.getElem_zip, carUpdate_position, gapsOf,
      List.getElem_zipWith, List.getElem_rotate, drawsFor, List.getElem_range,
      List.length_map, hL1]
  -- the per-pair distinctness argument
  have key : ∀ i j (hi : i < (stepRoad r tape).cars.length)
      (hj : j < (stepRoad r tape).cars.length), i < j →
      ((stepRoad r tape).cars.get ⟨i, hi⟩).position ≠
        ((stepRoad r tape).cars.get ⟨j, hj⟩).position := by
    intro i j hi hj hij
    have hi2 : i < sorted.length := by omega
    have hj2 : j < sorted.length := by omega
    have hi12 : i + 1 < sorted.length := by omega
    rw [hget i hi, hget j hj]
    have hmodi : (i + 1) % sorted.length = i + 1 := Nat.mod_eq_of_lt hi12
    simp only [hmodi]
    -- kinematic facts at i, i+1, j
    obtain ⟨⟨hpi0, hpi1⟩, hkini⟩ := hmemS (sorted.get ⟨i, hi2⟩) (sorted.get_mem _ _)
    obtain ⟨⟨hpj0, hpj1⟩, hkinj⟩ := hmemS (sorted.get ⟨j, hj2⟩) (sorted.get_mem _ _)
    obtain ⟨⟨hpi10, hpi11⟩, _⟩ := hmemS (sorted.get ⟨i + 1, hi12⟩) (sorted.get_mem _ _)
    have hii1 : (sorted.get ⟨i, hi2⟩).position < (sorted.get ⟨i + 1, hi12⟩).position :=
      hstrictIdx i (i + 1) hi2 hi12 (by omega)
    have hi1j : (sorted.get ⟨i + 1, hi12⟩).position ≤ (sorted.get ⟨j, hj2⟩).position :=
      hmono (i + 1) j hi12 hj2 (by omega)
    -- gap at i is the plain difference to the next position
    have hgi : ((sorted.get ⟨i + 1, hi12⟩).position - (sorted.get ⟨i, hi2⟩).position)
        % r.length
        = (sorted.get ⟨i + 1, hi12⟩).position - (sorted.get ⟨i, hi2⟩).position :=
      Int.emod_eq_of_lt (by omega) (by omega)
    rw [hgi]
    -- velocity bounds at i
    have hvi0 : 0 ≤ updVel (sorted.get ⟨i, hi2⟩)
        ((sorted.get ⟨i + 1, hi12⟩).position - (sorted.get ⟨i, hi2⟩).position) (tape i) :=
      updVel_nonneg _ _ _ hkini.1 hkini.2.1 hkini.2.2
    have hvi1 : updVel (sorted.get ⟨i, hi2⟩)
        ((sorted.get ⟨i + 1, hi12⟩).position - (sorted.get ⟨i, hi2⟩).position) (tape i)
        < (sorted.get ⟨i + 1, hi12⟩).position - (sorted.get ⟨i, hi2⟩).position :=
      updVel_lt_gap _ _ _ (by omega) hkini.1 hkini.2.1 hkini.2.2
    set vi := updVel (sorted.get ⟨i, hi2⟩)
        ((sorted.get ⟨i + 1, hi12⟩).position - (sorted.get ⟨i, hi2⟩).position) (tape i)
    rcases Nat.lt_or_ge (j + 1) sorted.length with hj12 | hj12
    · -- j is not the last car: its gap is also a plain difference
      have hmodj : (j + 1) % sorted.length = j + 1 := Nat.mod_eq_of_lt hj12
      simp only [hmodj]
      obtain ⟨⟨hpj10, hpj11⟩, _⟩ := hmemS (sorted.get ⟨j + 1, hj12⟩) (sorted.get_mem _ _)
      have hjj1 : (sorted.get ⟨j, hj2⟩).position < (sorted.get ⟨j + 1, hj12⟩).position :=
        hstrictIdx j (j + 1) hj2 hj12 (by omega)
      have hgj : ((sorted.get ⟨j + 1, hj12⟩).position - (sorted.get ⟨j, hj2⟩).position)
          % r.length
          = (sorted.get ⟨j + 1, hj12⟩).position - (sorted.get ⟨j, hj2⟩).position :=
        Int.emod_eq_of_lt (by omega) (by omega)
      rw [hgj]
      have hvj0 : 0 ≤ updVel (sorted.get ⟨j, hj2⟩)
          ((sorted.get ⟨j + 1, hj12⟩).position - (sorted.get ⟨j, hj2⟩).position) (tape j) :=
        updVel_nonneg _ _ _ hkinj.1 hkinj.2.1 hkinj.2.2
      have hvj1 : updVel (sorted.get ⟨j, hj2⟩)
          ((sorted.get ⟨j + 1, hj12⟩).position - (sorted.get ⟨j, hj2⟩).position) (tape j)
          < (sorted.get ⟨j + 1, hj12⟩).position - (sorted.get ⟨j, hj2⟩).position :=
        updVel_lt_gap _ _ _ (by omega) hkinj.1 hkinj.2.1 hkinj.2.2
      set vj := updVel (sorted.get ⟨j, hj2⟩)
          ((sorted.get ⟨j + 1, hj12⟩).position - (sorted.get ⟨j, hj2⟩).position) (tape j)
      exact emod_ne_of_window r.length _ _ (by omega) (by omega)
    · -- j is the last car: its gap wraps around to car 0
      have hj1n : j + 1 = sorted.length := by omega
      have hmodj : (j + 1) % sorted.length = 0 := by rw [hj1n, Nat.mod_self]
      simp only [hmodj]
      have h0 : 0 < sorted.length := by omega
      obtain ⟨⟨hp00, hp01⟩, _⟩ := hmemS (sorted.get ⟨0, h0⟩) (sorted.get_mem _ _)
      have h0j : (sorted.get ⟨0, h0⟩).position < (sorted.get ⟨j, hj2⟩).position :=
        hstrictIdx 0 j h0 hj2 (by omega)
      have h0i : (sorted.get ⟨0, h0⟩).position ≤ (sorted.get ⟨i, hi2⟩).position :=
        hmono 0 i h0 hi2 (by omega)
      have hgj : ((sorted.get ⟨0, h0⟩).position - (sorted.get ⟨j, hj2⟩).position)
          % r.length
          = (sorted.get ⟨0, h0⟩).position - (sorted.get ⟨j, hj2⟩).position + r.length :=
        emod_eq_add_of_neg _ _ (by omega) (by omega)
      rw [hgj]
      have hvj0 : 0 ≤ updVel (sorted.get ⟨j, hj2⟩)
          ((sorted.get ⟨0, h0⟩).position - (sorted.get ⟨j, hj2⟩).position + r.length)
          (tape j) :=
        updVel_nonneg _ _ _ hkinj.1 hkinj.2.1 hkinj.2.2
      have hvj1 : updVel (sorted.get ⟨j, hj2⟩)
          ((sorted.get ⟨0, h0⟩).position - (sorted.get ⟨j, hj2⟩).position + r.length)
          (tape j)
          < (sorted.get ⟨0, h0⟩).position - (sorted.get ⟨j, hj2⟩).position + r.length :=
        updVel_lt_gap _ _ _ (by omega) hkinj.1 hkinj.2.1 hkinj.2.2
      set vj := updVel (sorted.get ⟨j, hj2⟩)
          ((sorted.get ⟨0, h0⟩).position - (sorted.get ⟨j, hj2⟩).position + r.length)
          (tape j)
      exact emod_ne_of_window r.length _ _ (by omega) (by omega)
  -- assemble pairwise distinctness of the mapped positions
  have hpw : ((stepRoad r tape).cars.map (fun c => c.position)).Pairwise (fun a b => a ≠ b) := by
    apply List.pairwise_iff_getElem.mpr
    intro a b ha hb hab
    simp only [List.length_map] at ha hb
    simp only [List.getElem_map]
    have := key a b ha hb hab
    simpa only [List.get_eq_getElem] using this
  exact hpw

/-- C6 witness: distinctness preserved on the concrete two-car road. -/
theorem step_preserves_distinct_positions_witness :
    (0 < roadW.length ∧ 2 ≤ roadW.cars.length
      ∧ (∀ c ∈ roadW.cars, 0 ≤ c.position ∧ c.position < roadW.length)
      ∧ (∀ c ∈ roadW.cars, 0 ≤ c.velocity ∧ 0 ≤ c.acceleration ∧ 0 ≤ c.v_max)
      ∧ (roadW.cars.map (fun c => c.position)).Nodup)
    ∧ ((stepRoad roadW (fun _ => 0)).cars.map (fun c => c.position)).Nodup :=
  ⟨⟨by decide, by decide, by decide, by decide, by decide⟩,
   step_preserves_distinct_positions roadW (fun _ => 0) (by decide) (by decide)
     (by decide) (by decide) (by decide)⟩

/-- The mean of a list of nonnegative rationals is nonnegative. -/
theorem npMean_nonneg (xs : List ℚ) (h : ∀ x ∈ xs, 0 ≤ x) : 0 ≤ npMean xs := by
  unfold npMean
  exact div_nonneg (List.sum_nonneg h) (by positivity)

/-- The variance of any list of rationals is nonnegative. -/
theorem npVar_nonneg (xs : List ℚ) : 0 ≤ npVar xs := by
  unfold npVar
  apply npMean_nonneg
  intro x hx
  obtain ⟨y, hy, rfl⟩ := List.mem_map.mp hx
  positivity

/-- Fields of the road state one step does not recompute. -/
theorem stepRoad_fields (r : Road) (tape : ℕ → ℚ) :
    (stepRoad r tape).n_cars = r.n_cars
    ∧ (stepRoad r tape).time = r.time + 1
    ∧ (stepRoad r tape).avg_velocity_history
        = r.avg_velocity_history
          ++ [npMean ((stepRoad r tape).cars.map (fun c => (c.velocity : ℚ)))]
    ∧ (stepRoad r tape).flow_history
        = r.flow_history
          ++ [(r.n_cars : ℚ) / (r.length : ℚ)
                * npMean ((stepRoad r tape).cars.map (fun c => (c.velocity : ℚ)))] := by
  obtain ⟨hL1, hN1, hT1, hA1, hB1, hC1, hPosMap, hCLen⟩ := applyAccidentEffects_preserves r
  refine ⟨?_, ?_, ?_, ?_⟩ <;>
    simp [stepRoad, recordMetrics, stepRoad_cars, hN1, hT1, hA1, hC1, hL1]

/-- Roads whose cars satisfy the kinematic sign conditions and whose
recorded metrics are nonnegative, with a sensible car count and length. -/
def goodRoad (r : Road) : Prop :=
  (∀ c ∈ r.cars, 0 ≤ c.velocity ∧ 0 ≤ c.acceleration ∧ 0 ≤ c.v_max)
  ∧ (∀ x ∈ r.avg_velocity_history, 0 ≤ x)
  ∧ (∀ x ∈ r.flow_history, 0 ≤ x)
  ∧ 0 ≤ r.n_cars ∧ 0 < r.length

/-- One step preserves `goodRoad`. -/
theorem stepRoad_good (r : Road) (tape : ℕ → ℚ) (h : goodRoad r) :
    goodRoad (stepRoad r tape) := by
  obtain ⟨hkin, hH1, hH3, hN, hL⟩ := h
  obtain ⟨hN1, hT1, hA1, hC1⟩ := stepRoad_fields r tape
  -- kinematics of the updated cars
  have hkin1 : ∀ c ∈ (applyAccidentEffects r).cars,
      0 ≤ c.velocity ∧ 0 ≤ c.acceleration ∧ 0 ≤ c.v_max := by
    rcases applyAccidentEffects_cars_cases r with hc | ⟨loc, hc⟩ <;> rw [hc]
    · exact hkin
    · intro c hcm
      obtain ⟨c0, hc0, rfl⟩ := List.mem_map.mp hcm
      obtain ⟨hp0, ha0, hm0, hv0⟩ := forceStop_fields r.length loc c0
      rw [ha0, hm0]
      rcases hv0 with hv0 | hv0 <;> rw [hv0]
      · exact ⟨le_refl 0, (hkin c0 hc0).2⟩
      · exact hkin c0 hc0
  have hkin2 : ∀ c ∈ (stepRoad r tape).cars,
      0 ≤ c.velocity ∧ 0 ≤ c.acceleration ∧ 0 ≤ c.v_max := by
    intro c hcm
    rw [stepRoad_cars] at hcm
    obtain ⟨cdq, hcdq, rfl⟩ := List.mem_map.mp hcm
    obtain ⟨hcd, hq⟩ := List.of_mem_zip hcdq
    obtain ⟨hc, hd⟩ := List.of_mem_zip hcd
    have hm : cdq.1.1 ∈ (applyAccidentEffects r).cars :=
      (List.perm_insertionSort carLE _).subset hc
    obtain ⟨hv, ha, hmx⟩ := hkin1 _ hm
    exact ⟨updVel_nonneg _ _ _ hv ha hmx, ha, hmx⟩
  have hvels : ∀ x ∈ (stepRoad r tape).cars.map (fun c => (c.velocity : ℚ)), 0 ≤ x := by
    intro x hx
    obtain ⟨c, hc, rfl⟩ := List.mem_map.mp hx
    exact_mod_cast (hkin2 c hc).1
  have havg : 0 ≤ npMean ((stepRoad r tape).cars.map (fun c => (c.velocity : ℚ))) :=
    npMean_nonneg _ hvels
  have hdens : 0 ≤ (r.n_cars : ℚ) / (r.length : ℚ) := by
    apply div_nonneg
    · exact_mod_cast hN
    · exact_mod_cast le_of_lt hL
  refine ⟨hkin2, ?_, ?_, ?_, ?_⟩
  · rw [hA1]
    intro x hx
    rcases List.mem_append.mp hx with hx | hx
    · exact hH1 x hx
    · rw [List.mem_singleton.mp hx]; exact havg
  · rw [hC1]
    intro x hx
    rcases List.mem_append.mp hx with hx | hx
    · exact hH3 x hx
    · rw [List.mem_singleton.mp hx]; exact mul_nonneg hdens havg
  · rw [hN1]; exact hN
  · rw [stepRoad_length]; exact hL

/-- One step appends exactly one value to the velocity and flow histories. -/
theorem stepRoad_hist_lengths (r : Road) (tape : ℕ → ℚ) :
    (stepRoad r tape).avg_velocity_history.length = r.avg_velocity_history.length + 1
    ∧ (stepRoad r tape).flow_history.length = r.flow_history.length + 1 := by
  obtain ⟨hN1, hT1, hA1, hC1⟩ := stepRoad_fields r tape
  rw [hA1, hC1]
  simp

/-- Running n steps preserves `goodRoad` and appends n history entries. -/
theorem runStepsT_spec (n : ℕ) (r : Road) (tape : ℕ → ℚ) (h : goodRoad r) :
    goodRoad (runStepsT r tape n)
    ∧ (runStepsT r tape n).avg_velocity_history.length
        = r.avg_velocity_history.length + n
    ∧ (runStepsT r tape n).flow_history.length = r.flow_history.length + n := by
  induction n generalizing r tape with
  | zero => exact ⟨h, rfl, rfl⟩
  | succ n ih =>
      obtain ⟨hg, hl1, hl2⟩ := ih (stepRoad r tape) (shiftTape tape r.cars.length)
        (stepRoad_good r tape h)
      obtain ⟨ha, hb⟩ := stepRoad_hist_lengths r tape
      refine ⟨hg, ?_, ?_⟩
      · rw [runStepsT, hl1, ha]; omega
      · rw [runStepsT, hl2, hb]; omega

/-- A successfully constructed road is `goodRoad` (given nonnegative v_max)
and starts with empty histories. -/
theorem roadInit_good (length n_cars v_max : Int) (brake_prob : ℚ) (sample : List Int)
    (road : Road) (hm : 0 ≤ v_max)
    (h : roadInit length n_cars v_max brake_prob sample = some road) :
    goodRoad road ∧ road.avg_velocity_history = [] ∧ road.flow_history = [] := by
  unfold roadInit at h
  split_ifs at h with hcond
  obtain rfl := Option.some.injEq _ _ |>.mp h.symm |>.symm
  refine ⟨⟨?_, by simp, by simp, by simp; omega, by simp; omega⟩, rfl, rfl⟩
  intro c hc
  obtain ⟨p, hp, rfl⟩ := List.mem_map.mp hc
  exact ⟨le_refl 0, by norm_num [mkCar], by simpa [mkCar] using hm⟩

/-- run_simulation, under a valid configuration, returns a road with
n_steps nonnegative history entries for average velocity and flow. -/
theorem runSimulation_spec (sampler : Sampler) (seedFn : ℕ → (ℕ → ℚ)) (tape0 : ℕ → ℚ)
    (n_steps : ℕ) (L n_cars v_max : Int) (bp : ℚ) (seed : Option ℕ)
    (hL : 0 < L) (hn0 : 0 ≤ n_cars) (hn1 : n_cars ≤ L) (hm : 0 ≤ v_max) :
    ∃ road, runSimulation sampler seedFn tape0 n_steps L n_cars v_max bp seed = some road
      ∧ road.avg_velocity_history.length = n_steps
      ∧ road.flow_history.length = n_steps
      ∧ (∀ x ∈ road.avg_velocity_history, 0 ≤ x)
      ∧ (∀ x ∈ road.flow_history, 0 ≤ x) := by
  set st := sampler (seedTape seedFn tape0 seed) L n_cars with hst
  obtain ⟨road0, hroad0⟩ : ∃ road0, roadInit L n_cars v_max bp st.1 = some road0 := by
    unfold roadInit
    rw [if_neg (by omega)]
    exact ⟨_, rfl⟩
  obtain ⟨hg, hA, hF⟩ := roadInit_good L n_cars v_max bp st.1 road0 hm hroad0
  obtain ⟨hg2, hl1, hl2⟩ := runStepsT_spec n_steps road0 st.2 hg
  refine ⟨runStepsT road0 st.2 n_steps, ?_, ?_, ?_, hg2.2.1, hg2.2.2.1⟩
  · show (roadInit L n_cars v_max bp st.1).map (fun r => runStepsT r st.2 n_steps)
      = some (runStepsT road0 st.2 n_steps)
    rw [hroad0]
    rfl
  · rw [hl1, hA]; simp
  · rw [hl2, hF]; simp

/-- If every element of a list maps to a successful optional result
satisfying P, the sequenced list is a success of the same length with every
entry satisfying P. -/
theorem seqOption_map_spec {β γ : Type} (f : β → Option γ) (bs : List β) (P : γ → Prop)
    (h : ∀ b ∈ bs, ∃ c, f b = some c ∧ P c) :
    ∃ res, seqOption (bs.map f) = some res ∧ res.length = bs.length ∧ ∀ c ∈ res, P c := by
  induction bs with
  | nil => exact ⟨[], rfl, rfl, by simp⟩
  | cons b bs ih =>
      obtain ⟨c, hc, hPc⟩ := h b (List.mem_cons_self b bs)
      obtain ⟨res, hres, hlen, hP⟩ := ih (fun x hx => h x (List.mem_cons_of_mem _ hx))
      refine ⟨c :: res, ?_, by simp [hlen], ?_⟩
      · simp [seqOption, hc, hres]
      · intro x hx
        rcases List.mem_cons.mp hx with rfl | hx
        · exact hPc
        · exact hP x hx

/-- For a density in [0,1] on a positive road length, the derived vehicle
count is a valid configuration and the aggregate entry for that density is
produced, keyed by the density, with all four aggregate values
nonnegative. -/
theorem densityScanOne_spec (sampler : Sampler) (seedFn : ℕ → (ℕ → ℚ)) (tape0 : ℕ → ℚ)
    (n_steps : ℕ) (L : Int) (n_runs burn_in : ℕ) (d : ℚ)
    (hL : 0 < L) (hd0 : 0 ≤ d) (hd1 : d ≤ 1) :
    ∃ agg, densityScanOne sampler seedFn tape0 n_steps L n_runs burn_in d = some (d, agg)
      ∧ 0 ≤ agg.avg_velocity ∧ 0 ≤ agg.var_velocity
      ∧ 0 ≤ agg.avg_flow ∧ 0 ≤ agg.var_flow := by
  have hLq : (0:ℚ) ≤ (L : ℚ) := by exact_mod_cast hL.le
  have hdl0 : (0:ℚ) ≤ d * (L : ℚ) := mul_nonneg hd0 hLq
  have hcc0 : 0 ≤ densityScanCarCount d L := by
    unfold densityScanCarCount pyInt
    rw [if_pos hdl0]
    exact Int.floor_nonneg.mpr hdl0
  have hcc1 : densityScanCarCount d L ≤ L := by
    unfold densityScanCarCount pyInt
    rw [if_pos hdl0]
    calc ⌊d * (L : ℚ)⌋ ≤ ⌊((L : Int) : ℚ)⌋ :=
          Int.floor_le_floor (mul_le_of_le_one_left hLq hd1)
      _ = L := Int.floor_intCast L
  have hreps : ∃ reps,
      densityScanReplicates sampler seedFn tape0 n_steps L n_runs burn_in
          (densityScanCarCount d L) = some reps
        ∧ reps.length = n_runs ∧ ∀ p ∈ reps, 0 ≤ p.1 ∧ 0 ≤ p.2 := by
    have hper : ∀ run ∈ List.range n_runs,
        ∃ c, (runSimulation sampler seedFn tape0 n_steps L
            (densityScanCarCount d L) 5 (3/10) (some run)).map
          (fun road => (npMean (road.avg_velocity_history.drop burn_in),
                        npMean (road.flow_history.drop burn_in))) = some c
          ∧ 0 ≤ c.1 ∧ 0 ≤ c.2 := by
      intro run hrun
      obtain ⟨road, hroad, hla, hlf, hva, hvf⟩ := runSimulation_spec sampler seedFn tape0
        n_steps L (densityScanCarCount d L) 5 (3/10) (some run) hL hcc0 hcc1 (by omega)
      refine ⟨_, by rw [hroad]; rfl, ?_, ?_⟩
      · exact npMean_nonneg _ (fun x hx => hva x (List.mem_of_mem_drop hx))
      · exact npMean_nonneg _ (fun x hx => hvf x (List.mem_of_mem_drop hx))
    obtain ⟨res, h1, h2, h3⟩ := seqOption_map_spec _ (List.range n_runs)
      (fun p : ℚ × ℚ => 0 ≤ p.1 ∧ 0 ≤ p.2) hper
    unfold densityScanReplicates
    exact ⟨res, h1, by simpa using h2, h3⟩
  obtain ⟨reps, hreps, hlen, hP⟩ := hreps
  refine ⟨{ avg_velocity := npMean (reps.map Prod.fst),
            var_velocity := npVar (reps.map Prod.fst),
            avg_flow := npMean (reps.map Prod.snd),
            var_flow := npVar (reps.map Prod.snd) }, ?_, ?_, npVar_nonneg _, ?_,
      npVar_nonneg _⟩
  · unfold densityScanOne
    rw [hreps]
    rfl
  · exact npMean_nonneg _ (fun x hx => by
      obtain ⟨p, hp, rfl⟩ := List.mem_map.mp hx
      exact (hP p hp).1)
  · exact npMean_nonneg _ (fun x hx => by
      obtain ⟨p, hp, rfl⟩ := List.mem_map.mp hx
      exact (hP p hp).2)

/-- C9 counterexample: the density scan derives the vehicle count with
Python's int() truncation, not rounding.  At density 0.0019 on a road of
length 1000, density * length = 1.9: the code uses int(1.9) = 1 vehicle,
while round(1.9) = 2. -/
theorem density_scan_count_not_round :
    densityScanCarCount (19/10000) 1000 = 1 ∧ round ((19/10000 : ℚ) * 1000) = 2 := by
  constructor
  · unfold densityScanCarCount pyInt
    rw [if_pos (by norm_num)]
    rw [show (19/10000 : ℚ) * ((1000 : Int) : ℚ) = 19/10 by norm_num]
    rw [Int.floor_eq_iff]
    norm_num
  · rw [show (19/10000 : ℚ) * 1000 = 19/10 by norm_num, round_eq]
    rw [show (19:ℚ)/10 + 1/2 = 12/5 by norm_num]
    rw [Int.floor_eq_iff]
    norm_num

/-- C9 amended: for distinct densities in [0,1] on a positive road length,
with at least one replicate and burn-in shorter than the run, the scan
derives each vehicle count as int(density * road length) (truncation), and
returns exactly one aggregate entry per requested density, in order, each
holding the mean and the (squared) standard deviation over the N replicates
(seed = replicate index, burn-in prefix discarded) of steady-state velocity
and flow, all nonnegative. -/
theorem density_scan_shape (sampler : Sampler) (seedFn : ℕ → (ℕ → ℚ)) (tape0 : ℕ → ℚ)
    (densities : List ℚ) (n_steps : ℕ) (road_length : Int) (n_runs burn_in : ℕ)
    (hL : 0 < road_length)
    (hall : ∀ d ∈ densities, 0 ≤ d ∧ d ≤ 1)
    (hnodup : densities.Nodup)
    (hruns : 0 < n_runs) (hburn : burn_in < n_steps) :
    ∃ res, experimentDensityScan sampler seedFn tape0 densities n_steps road_length
        n_runs burn_in = some res
      ∧ res.length = densities.length
      ∧ res.map Prod.fst = densities
      ∧ ∀ e ∈ res, 0 ≤ e.2.avg_velocity ∧ 0 ≤ e.2.var_velocity
          ∧ 0 ≤ e.2.avg_flow ∧ 0 ≤ e.2.var_flow := by
  induction densities with
  | nil => exact ⟨[], rfl, rfl, rfl, by simp⟩
  | cons d ds ih =>
      obtain ⟨hd0, hd1⟩ := hall d (List.mem_cons_self d ds)
      obtain ⟨agg, hagg, h1, h2, h3, h4⟩ := densityScanOne_spec sampler seedFn tape0
        n_steps road_length n_runs burn_in d hL hd0 hd1
      obtain ⟨res, hres, hlen, hkey, hP⟩ :=
        ih (fun x hx => hall x (List.mem_cons_of_mem _ hx)) (List.Nodup.of_cons hnodup)
      have hres2 : seqOption (ds.map
          (densityScanOne sampler seedFn tape0 n_steps road_length n_runs burn_in))
          = some res := hres
      refine ⟨(d, agg) :: res, ?_, by simp [hlen], by simp [hkey], ?_⟩
      · show seqOption (((d :: ds)).map
            (densityScanOne sampler seedFn tape0 n_steps road_length n_runs burn_in))
          = some ((d, agg) :: res)
        simp [seqOption, hagg, hres2]
      · intro e he
        rcases List.mem_cons.mp he with rfl | he
        · exact ⟨h1, h2, h3, h4⟩
        · exact hP e he

/-- C9 witness: the scan evaluated at density 1 on a road of length 1,
one step, one replicate, no burn-in, with a trivial sampler and seed
function. -/
theorem density_scan_shape_witness :
    ((0:Int) < 1 ∧ (∀ d ∈ [(1:ℚ)], 0 ≤ d ∧ d ≤ 1) ∧ ([(1:ℚ)]).Nodup
      ∧ (0:ℕ) < 1 ∧ (0:ℕ) < 1)
    ∧ (∃ res, experimentDensityScan (fun tape _ _ => ([0], tape)) (fun _ _ => 0)
          (fun _ => 0) [(1:ℚ)] 1 1 1 0 = some res
        ∧ res.length = ([(1:ℚ)]).length
        ∧ res.map Prod.fst = [(1:ℚ)]
        ∧ ∀ e ∈ res, 0 ≤ e.2.avg_velocity ∧ 0 ≤ e.2.var_velocity
            ∧ 0 ≤ e.2.avg_flow ∧ 0 ≤ e.2.var_flow) :=
  ⟨⟨by decide, by decide, by decide, by decide, by decide⟩,
   density_scan_shape _ _ _ _ _ _ _ _ (by decide) (by decide) (by decide) (by decide)
     (by decide)⟩
